import Mathlib

/-!
Verification of the parsing-and-classification core of
`src/email_slicer_with_insights.py` (Email Slicer with Insights).

Strings are modelled as `List Char`. Each Python function of the logical
core is translated to an executable Lean definition with the same name:
`validate_email`, `parse_email`, `provider_insights`, `detect_email_type`,
`tld_info`, `suggest_fix`, `fake_creation_year`, and the bulk-analysis
loop. Python dictionaries are modelled as association lists in declaration
order (Python 3.7+ dicts iterate in insertion order).
-/

/-- Strings as lists of characters. -/
abbrev Str := List Char

/-- Convenience conversion from Lean string literals. -/
def str (s : String) : Str := s.data

/-- Characters stripped by Python `str.strip()` (the ASCII whitespace set;
the library also strips rarer Unicode whitespace, irrelevant here). -/
def isPySpace (c : Char) : Bool :=
  c = ' ' || c = '\t' || c = '\n' || c = '\r' || c = '\x0b' || c = '\x0c'

/-- Python `s.strip()`: drop leading and trailing whitespace. -/
def pyStrip (l : Str) : Str :=
  ((l.dropWhile isPySpace).reverse.dropWhile isPySpace).reverse

/-- Python `s.lower()` (ASCII case folding; table keys are ASCII). -/
def pyLower (l : Str) : Str := l.map Char.toLower

/-- Character class `[a-zA-Z0-9_.+-]` of the validation regex (local part). -/
def localChar (c : Char) : Bool :=
  c.isAlpha || c.isDigit || c = '_' || c = '.' || c = '+' || c = '-'

/-- Character class `[a-zA-Z0-9-]` of the validation regex (first domain label). -/
def labelChar (c : Char) : Bool :=
  c.isAlpha || c.isDigit || c = '-'

/-- Character class `[a-zA-Z0-9-.]` of the validation regex (rest of the domain). -/
def tailChar (c : Char) : Bool :=
  c.isAlpha || c.isDigit || c = '-' || c = '.'

/-- Matcher for the domain part `[a-zA-Z0-9-]+\.[a-zA-Z0-9-.]+$` of the regex:
since `labelChar` excludes the dot, the regex's first label is exactly the text
before the first dot, and the rest follows that dot. -/
def matchDomain (dom : Str) : Bool :=
  let d1 := dom.takeWhile (fun c => c != '.')
  let rest := (dom.dropWhile (fun c => c != '.')).tail
  dom.contains '.' && !d1.isEmpty && d1.all labelChar && !rest.isEmpty && rest.all tailChar

/-- Full-string matcher for `^[a-zA-Z0-9_.+-]+@[a-zA-Z0-9-]+\.[a-zA-Z0-9-.]+$`:
since none of the three classes contains `@`, the regex's `@` is the first `@`
of the subject, so the local part is exactly the text before it. -/
def regexMatch (t : Str) : Bool :=
  let l := t.takeWhile (fun c => c != '@')
  let rest := (t.dropWhile (fun c => c != '@')).tail
  t.contains '@' && !l.isEmpty && l.all localChar && matchDomain rest

/-- Python `validate_email`: `False` for empty input or input without `@`,
otherwise the regex applied to the stripped string. -/
def validate_email (email : Str) : Bool :=
  if email.isEmpty || !(email.contains '@') then false
  else regexMatch (pyStrip email)

/-- Python `parse_email`: strip, split on the first `@` into username and
full domain (`split("@", 1)` raises when there is no `@`, modelled as `none`),
then split the domain on dots: the domain name is the first segment and the
extension is the last segment when more than one segment exists, else `""`. -/
def parse_email (email : Str) : Option (Str × Str × Str × Str) :=
  let e := pyStrip email
  if e.contains '@' then
    let username := e.takeWhile (fun c => c != '@')
    let domain_full := (e.dropWhile (fun c => c != '@')).tail
    let domain_parts := domain_full.splitOn '.'
    let domain_name := domain_parts.headD domain_full
    let extension := if 1 < domain_parts.length then domain_parts.getLastD [] else []
    some (username, domain_full, domain_name, extension)
  else none

/-- Provider record: the dictionary returned by `provider_insights` with keys
`provider_name`, `provider_type`, `notes`. -/
structure ProviderInfo where
  provider_name : Str
  provider_type : Str
  notes : Str
deriving DecidableEq

/-- The `mapping` dictionary of `provider_insights`, in declaration order. -/
def provider_mapping : List (Str × ProviderInfo) :=
  [ (str "gmail.com", ⟨str "Google Mail", str "Free/Consumer", str "Popular personal email provider (Gmail)."⟩),
    (str "googlemail.com", ⟨str "Google Mail", str "Free/Consumer", str "Alias for Gmail."⟩),
    (str "yahoo.com", ⟨str "Yahoo Mail", str "Free/Consumer", str "Popular consumer email provider."⟩),
    (str "outlook.com", ⟨str "Microsoft Outlook", str "Free/Consumer", str "Microsoft consumer email service."⟩),
    (str "hotmail.com", ⟨str "Microsoft Hotmail/Outlook", str "Free/Consumer", str "Legacy Hotmail (now Outlook)."⟩),
    (str "live.com", ⟨str "Microsoft Live/Outlook", str "Free/Consumer", str "Microsoft's Live/Outlook domains."⟩),
    (str "protonmail.com", ⟨str "Proton Mail", str "Privacy-focused", str "End-to-end encrypted email service."⟩),
    (str "icloud.com", ⟨str "Apple iCloud Mail", str "Free/Consumer", str "Apple's consumer email service."⟩),
    (str "zoho.com", ⟨str "Zoho Mail", str "Business/SMB", str "Often used for small-business/custom domains."⟩),
    (str "aol.com", ⟨str "AOL Mail", str "Free/Consumer", str "Legacy consumer email provider."⟩),
    (str "mail.com", ⟨str "mail.com", str "Free/Consumer", str "Consumer email service with multiple domain choices."⟩),
    (str "gmx.com", ⟨str "GMX Mail", str "Free/Consumer", str "European consumer email provider."⟩) ]

/-- The per-entry test of the `provider_insights` loop:
`domain == key or domain.endswith("." + key)`. -/
def provMatches (domain : Str) (kv : Str × ProviderInfo) : Bool :=
  domain = kv.1 || List.isSuffixOf ('.' :: kv.1) domain

/-- Fallback entry for `.edu` domains in `provider_insights`. -/
def eduEntry : ProviderInfo :=
  ⟨str "Educational (edu)", str "Institutional", str "Typically a university/college email."⟩

/-- Fallback entry for `.gov` domains in `provider_insights`. -/
def govEntry : ProviderInfo :=
  ⟨str "Government (gov)", str "Institutional", str "Government domain."⟩

/-- Generic fallback entry of `provider_insights`. -/
def customEntry : ProviderInfo :=
  ⟨str "Custom / Organization", str "Custom/Business", str "Could be a company or self-hosted email. Provider-specific features unknown."⟩

/-- Python `provider_insights`: lowercase the domain, return the first table
entry matching by equality or dot-suffix, else the `.edu` / `.gov` special
cases, else the generic custom entry. -/
def provider_insights (domain_full : Str) : ProviderInfo :=
  let domain := pyLower domain_full
  match provider_mapping.find? (provMatches domain) with
  | some kv => kv.2
  | none =>
    if List.isSuffixOf (str ".edu") domain then eduEntry
    else if List.isSuffixOf (str ".gov") domain then govEntry
    else customEntry

/-- Python's substring test `k in d`, as a Bool. -/
def pyIn (k d : Str) : Bool := decide (k <:+: d)

/-- The `personal_keywords` list of `detect_email_type`, in order. -/
def personal_keywords : List Str :=
  [str "gmail", str "yahoo", str "hotmail", str "outlook", str "icloud",
   str "aol", str "protonmail", str "gmx", str "mail.com", str "zoho"]

/-- Python `detect_email_type`: keyword substring match, then educational
suffixes, then `.gov`, else business. -/
def detect_email_type (domain_full : Str) : Str :=
  let d := pyLower domain_full
  if personal_keywords.any (fun k => pyIn k d) then str "Personal Email"
  else if List.isSuffixOf (str ".edu") d || List.isSuffixOf (str ".ac.in") d || List.isSuffixOf (str ".edu.in") d then
    str "Educational / Academic Email"
  else if List.isSuffixOf (str ".gov") d then str "Government Email"
  else str "Business / Organizational Email"

/-- The `TLD_INFO` dictionary, in declaration order. -/
def TLD_INFO : List (Str × Str) :=
  [ (str "com", str "Commercial (global)"),
    (str "org", str "Organization (non-profit)"),
    (str "net", str "Network / ISP"),
    (str "edu", str "Educational institutions"),
    (str "gov", str "Government"),
    (str "in", str "India (country code TLD)"),
    (str "uk", str "United Kingdom (country code TLD)"),
    (str "us", str "United States (country code TLD)"),
    (str "ca", str "Canada (country code TLD)"),
    (str "au", str "Australia (country code TLD)") ]

/-- Python `tld_info`: empty extension reports local, unknown keys fall back. -/
def tld_info (extension : Str) : Str :=
  if extension.isEmpty then str "No TLD / local"
  else
    match TLD_INFO.find? (fun kv => kv.1 = pyLower extension) with
    | some kv => kv.2
    | none => str "Unknown or custom TLD"

/-- The `COMMON_FIXES` dictionary, in declaration order. -/
def COMMON_FIXES : List (Str × Str) :=
  [ (str "gamil.com", str "gmail.com"),
    (str "gmai.com", str "gmail.com"),
    (str "gmal.com", str "gmail.com"),
    (str "yaho.com", str "yahoo.com"),
    (str "hotnail.com", str "hotmail.com"),
    (str "outlok.com", str "outlook.com"),
    (str "gnail.com", str "gmail.com") ]

/-- Python `suggest_fix`: `COMMON_FIXES.get(domain_full.lower(), None)`. -/
def suggest_fix (domain_full : Str) : Option Str :=
  (COMMON_FIXES.find? (fun kv => kv.1 = pyLower domain_full)).map (fun kv => kv.2)

/-- Modelled from the spec: `hashlib.md5` is an external library function, not
code of this repository; the code uses it only as an arbitrary stable hash
(`int(hashlib.md5(email.encode()).hexdigest(), 16)`), and the spec says the
exact algorithm is not load-bearing, only determinism and the modulus. A
base-256 fold of the character codes stands in for the MD5 integer. -/
def md5Nat (l : Str) : Nat := l.foldl (fun h c => h * 256 + c.toNat) 0

/-- Python `fake_creation_year`: `2000 + (h % 25)` for the hash `h` of the
full email string. -/
def fake_creation_year (email : Str) : Nat := 2000 + md5Nat email % 25

/-- One row of the bulk-analysis table: a full record for a valid line or an
error record `{"original": e, "error": "Invalid format"}`. -/
inductive AnalysisRecord where
  | ok (original username domain extension : Str)
      (username_len domain_len extension_len : Nat)
      (provider type_name tld : Str) (creation_year_est : Nat) (suggest : Str)
  | err (original error : Str)
deriving DecidableEq

/-- Whether a bulk record is the error kind. -/
def isErrRecord : AnalysisRecord → Bool
  | .err _ _ => true
  | _ => false

/-- The body of the bulk-analysis loop for one (already stripped) line `e`:
validate, then either build the full record (including the typo suggestion
`f"{u}@{fix}"`, or `""`) or the error record. The `none` branch of the parse
is unreachable: `validate_email` guarantees an `@` is present. -/
def bulk_record (e : Str) : AnalysisRecord :=
  if validate_email e then
    match parse_email e with
    | some (u, d, _, x) =>
      .ok e u d x u.length d.length x.length
        (provider_insights d).provider_name (detect_email_type d) (tld_info x)
        (fake_creation_year e)
        (match suggest_fix d with
         | some f => u ++ '@' :: f
         | none => [])
    | none => .err e (str "Invalid format")
  else .err e (str "Invalid format")

/-- The bulk-analysis loop over the cleaned list of input lines. -/
def analyze_bulk (lines : List Str) : List AnalysisRecord := lines.map bulk_record

/-- The valid-count reported after bulk analysis: the number of rows without
an `error` field (both the `df["error"].isna()` path and its fallback count
exactly the non-error records). -/
def valid_count (records : List AnalysisRecord) : Nat :=
  records.countP (fun r => !(isErrRecord r))

/-- The four email-type strings `detect_email_type` can return, in branch order. -/
def email_types : List Str :=
  [str "Personal Email", str "Educational / Academic Email",
   str "Government Email", str "Business / Organizational Email"]

/-- The keyword test of `detect_email_type`'s first branch. -/
def hasPersonalKeyword (domain_full : Str) : Bool :=
  personal_keywords.any (fun k => pyIn k (pyLower domain_full))

/-- The educational-suffix test of `detect_email_type`'s second branch. -/
def eduSuffix (d : Str) : Bool :=
  List.isSuffixOf (str ".edu") d || List.isSuffixOf (str ".ac.in") d || List.isSuffixOf (str ".edu.in") d

/-- The validator contract in the spec's own words (claim C1): the trimmed
string is `local-part@domain` where the local part consists of letters,
digits and `. _ + -`, and the domain is one or more dot-separated labels of
letters, digits and hyphens. -/
def specClaimValid (s : Str) : Prop :=
  ∃ l d : Str, pyStrip s = l ++ '@' :: d ∧ l ≠ [] ∧ (∀ c ∈ l, localChar c = true) ∧
    (∀ seg ∈ d.splitOn '.', seg ≠ [] ∧ ∀ c ∈ seg, labelChar c = true)

/-- The validator contract as the regex actually implements it: the trimmed
string is `l@d1.r` with `l` a nonempty run of letters, digits and `. _ + -`,
`d1` a nonempty run of letters, digits and hyphens, and `r` a nonempty run of
letters, digits, hyphens and dots (so the domain holds at least one dot, and
labels after the first may be empty). -/
def specAmendedValid (s : Str) : Prop :=
  ∃ l d1 r : Str, pyStrip s = l ++ '@' :: (d1 ++ '.' :: r) ∧
    l ≠ [] ∧ (∀ c ∈ l, localChar c = true) ∧
    d1 ≠ [] ∧ (∀ c ∈ d1, labelChar c = true) ∧
    r ≠ [] ∧ (∀ c ∈ r, tailChar c = true)

/-! Helper lemmas about the list operations underlying the embedding. -/

theorem takeWhile_append_eq {α : Type} (p : α → Bool) (l r : List α) (c : α)
    (hl : ∀ x ∈ l, p x = true) (hc : p c = false) :
    (l ++ c :: r).takeWhile p = l := by
  induction l with
  | nil => simp [List.takeWhile_cons, hc]
  | cons a as ih =>
    have ha : p a = true := hl a (by simp)
    simp only [List.cons_append, List.takeWhile_cons, ha, if_true]
    rw [ih (fun x hx => hl x (by simp [hx]))]

theorem dropWhile_append_eq {α : Type} (p : α → Bool) (l r : List α) (c : α)
    (hl : ∀ x ∈ l, p x = true) (hc : p c = false) :
    (l ++ c :: r).dropWhile p = c :: r := by
  induction l with
  | nil => simp [List.dropWhile_cons, hc]
  | cons a as ih =>
    have ha : p a = true := hl a (by simp)
    simp only [List.cons_append, List.dropWhile_cons, ha, if_true]
    exact ih (fun x hx => hl x (by simp [hx]))

theorem mem_pyStrip {x : Char} {s : Str} (h : x ∈ pyStrip s) : x ∈ s := by
  unfold pyStrip at h
  rw [List.mem_reverse] at h
  have h1 : x ∈ (s.dropWhile isPySpace).reverse := (List.dropWhile_sublist _).subset h
  rw [List.mem_reverse] at h1
  exact (List.dropWhile_sublist _).subset h1

theorem first_split {α : Type} [BEq α] [LawfulBEq α] (a : α) {t : List α} (ht : a ∈ t) :
    ∃ l r, t = l ++ a :: r ∧ (∀ x ∈ l, x ≠ a) ∧
      t.takeWhile (fun c => c != a) = l ∧ t.dropWhile (fun c => c != a) = a :: r := by
  induction t with
  | nil => cases ht
  | cons x xs ih =>
    by_cases hx : x = a
    · subst hx
      refine ⟨[], xs, rfl, by simp, ?_, ?_⟩
      · simp [List.takeWhile_cons]
      · simp [List.dropWhile_cons]
    · have hmem : a ∈ xs := by
        cases ht with
        | head => exact absurd rfl hx
        | tail _ h => exact h
      obtain ⟨l, r, hlr, hnl, htk, hdp⟩ := ih hmem
      have hxb : (x != a) = true := bne_iff_ne.mpr hx
      refine ⟨x :: l, r, by rw [hlr]; rfl, ?_, ?_, ?_⟩
      · intro y hy
        rcases List.mem_cons.mp hy with h | h
        · exact h ▸ hx
        · exact hnl y h
      · simp only [List.takeWhile_cons, hxb, if_true, htk]
      · simp only [List.dropWhile_cons, hxb, if_true, hdp]

theorem find?_eq_get_of_first {α : Type} (p : α → Bool) :
    ∀ (l : List α) (i : Nat) (h : i < l.length),
      p (l.get ⟨i, h⟩) = true →
      (∀ j (hj : j < i), p (l.get ⟨j, Nat.lt_trans hj h⟩) = false) →
      l.find? p = some (l.get ⟨i, h⟩) := by
  intro l
  induction l with
  | nil => intro i h; exact absurd h (by simp)
  | cons x xs ih =>
    intro i h hp hb
    match i with
    | 0 => simpa using List.find?_cons_of_pos xs hp
    | i + 1 =>
      have hx : p x = false := hb 0 (Nat.succ_pos i)
      rw [List.find?_cons_of_neg xs (by simp [hx])]
      exact ih i (Nat.lt_of_succ_lt_succ h) hp
        (fun j hj => hb (j + 1) (Nat.succ_lt_succ hj))

theorem localChar_ne_at {c : Char} (h : localChar c = true) : c ≠ '@' := by
  intro he; subst he; exact absurd h (by decide)

theorem labelChar_ne_dot {c : Char} (h : labelChar c = true) : c ≠ '.' := by
  intro he; subst he; exact absurd h (by decide)

theorem matchDomain_iff (dom : Str) :
    matchDomain dom = true ↔
      ∃ d1 r : Str, dom = d1 ++ '.' :: r ∧ d1 ≠ [] ∧ (∀ c ∈ d1, labelChar c = true) ∧
        r ≠ [] ∧ (∀ c ∈ r, tailChar c = true) := by
  constructor
  · intro h
    unfold matchDomain at h
    simp only [Bool.and_eq_true] at h
    obtain ⟨⟨⟨⟨hcont, hne⟩, hall⟩, hrne⟩, hrall⟩ := h
    have hmem : '.' ∈ dom := List.elem_iff.mp hcont
    obtain ⟨l, r, hlr, _, htk, hdp⟩ := first_split '.' hmem
    rw [htk] at hne hall
    rw [hdp] at hrne hrall
    simp only [List.tail_cons] at hrne hrall
    refine ⟨l, r, hlr, ?_, ?_, ?_, ?_⟩
    · intro hl0; rw [hl0] at hne; exact absurd hne (by decide)
    · exact fun c hc => List.all_eq_true.mp hall c hc
    · intro hr0; rw [hr0] at hrne; exact absurd hrne (by decide)
    · exact fun c hc => List.all_eq_true.mp hrall c hc
  · rintro ⟨d1, r, hlr, hne, hall, hrne, hrall⟩
    have hd1 : ∀ x ∈ d1, (x != '.') = true :=
      fun x hx => bne_iff_ne.mpr (labelChar_ne_dot (hall x hx))
    have htk : dom.takeWhile (fun c => c != '.') = d1 := by
      rw [hlr]; exact takeWhile_append_eq _ d1 r '.' hd1 (by decide)
    have hdp : dom.dropWhile (fun c => c != '.') = '.' :: r := by
      rw [hlr]; exact dropWhile_append_eq _ d1 r '.' hd1 (by decide)
    have hcont : dom.contains '.' = true := by
      refine List.elem_iff.mpr ?_
      rw [hlr]
      exact List.mem_append_right _ (List.mem_cons_self _ _)
    unfold matchDomain
    simp only [htk, hdp, List.tail_cons, Bool.and_eq_true]
    refine ⟨⟨⟨⟨hcont, ?_⟩, List.all_eq_true.mpr hall⟩, ?_⟩, List.all_eq_true.mpr hrall⟩
    · simp [List.isEmpty_iff, hne]
    · simp [List.isEmpty_iff, hrne]

theorem regexMatch_iff (t : Str) :
    regexMatch t = true ↔
      ∃ l d1 r : Str, t = l ++ '@' :: (d1 ++ '.' :: r) ∧
        l ≠ [] ∧ (∀ c ∈ l, localChar c = true) ∧
        d1 ≠ [] ∧ (∀ c ∈ d1, labelChar c = true) ∧
        r ≠ [] ∧ (∀ c ∈ r, tailChar c = true) := by
  constructor
  · intro h
    unfold regexMatch at h
    simp only [Bool.and_eq_true] at h
    obtain ⟨⟨⟨hcont, hne⟩, hall⟩, hdom⟩ := h
    have hmem : '@' ∈ t := List.elem_iff.mp hcont
    obtain ⟨l, post, hlr, _, htk, hdp⟩ := first_split '@' hmem
    rw [htk] at hne hall
    rw [hdp] at hdom
    simp only [List.tail_cons] at hdom
    obtain ⟨d1, r, hpost, hd1ne, hd1all, hrne, hrall⟩ := (matchDomain_iff post).mp hdom
    refine ⟨l, d1, r, ?_, ?_, fun c hc => List.all_eq_true.mp hall c hc, hd1ne, hd1all, hrne, hrall⟩
    · rw [hlr, hpost]
    · intro hl0; rw [hl0] at hne; exact absurd hne (by decide)
  · rintro ⟨l, d1, r, hlr, hne, hall, hd1ne, hd1all, hrne, hrall⟩
    have hl : ∀ x ∈ l, (x != '@') = true :=
      fun x hx => bne_iff_ne.mpr (localChar_ne_at (hall x hx))
    have htk : t.takeWhile (fun c => c != '@') = l := by
      rw [hlr]; exact takeWhile_append_eq _ l _ '@' hl (by decide)
    have hdp : t.dropWhile (fun c => c != '@') = '@' :: (d1 ++ '.' :: r) := by
      rw [hlr]; exact dropWhile_append_eq _ l _ '@' hl (by decide)
    have hcont : t.contains '@' = true := by
      refine List.elem_iff.mpr ?_
      rw [hlr]
      exact List.mem_append_right _ (List.mem_cons_self _ _)
    unfold regexMatch
    simp only [htk, hdp, List.tail_cons, Bool.and_eq_true]
    refine ⟨⟨⟨hcont, ?_⟩, List.all_eq_true.mpr hall⟩, ?_⟩
    · simp [List.isEmpty_iff, hne]
    · exact (matchDomain_iff _).mpr ⟨d1, r, rfl, hd1ne, hd1all, hrne, hrall⟩

theorem validate_email_iff (s : Str) : validate_email s = true ↔ specAmendedValid s := by
  unfold validate_email
  by_cases hg : (s.isEmpty || !(s.contains '@')) = true
  · rw [if_pos hg]
    simp only [Bool.false_eq_true, false_iff]
    rintro ⟨l, d1, r, heq, -, -, -, -, -, -⟩
    have hat : '@' ∈ pyStrip s := by
      rw [heq]; exact List.mem_append_right _ (List.mem_cons_self _ _)
    have hat' : '@' ∈ s := mem_pyStrip hat
    have h1 : s.contains '@' = true := List.elem_iff.mpr hat'
    have h2 : s.isEmpty = false := by
      simp [List.isEmpty_iff, List.ne_nil_of_mem hat']
    rw [h1, h2] at hg
    exact absurd hg (by decide)
  · rw [if_neg hg]
    exact regexMatch_iff (pyStrip s)

theorem parse_email_split (s : Str) (l d : Str) (hs : pyStrip s = l ++ '@' :: d)
    (hl : ∀ x ∈ l, x ≠ '@') :
    parse_email s = some (l, d, (d.splitOn '.').headD d,
      if 1 < (d.splitOn '.').length then (d.splitOn '.').getLastD [] else []) := by
  have hlb : ∀ x ∈ l, (x != '@') = true := fun x hx => bne_iff_ne.mpr (hl x hx)
  have hcont : (pyStrip s).contains '@' = true := by
    refine List.elem_iff.mpr ?_
    rw [hs]
    exact List.mem_append_right _ (List.mem_cons_self _ _)
  have htk : (pyStrip s).takeWhile (fun c => c != '@') = l := by
    rw [hs]; exact takeWhile_append_eq _ l _ '@' hlb (by decide)
  have hdp : (pyStrip s).dropWhile (fun c => c != '@') = '@' :: d := by
    rw [hs]; exact dropWhile_append_eq _ l _ '@' hlb (by decide)
  simp only [parse_email, hcont, if_true, htk, hdp, List.tail_cons]

theorem detect_email_type_eq (d : Str) :
    detect_email_type d =
      if hasPersonalKeyword d then str "Personal Email"
      else if eduSuffix (pyLower d) then str "Educational / Academic Email"
      else if List.isSuffixOf (str ".gov") (pyLower d) then str "Government Email"
      else str "Business / Organizational Email" := rfl

/-- Claim C2: for the domain `gmail.com` the classifier yields provider name
`Google Mail` and an email type containing the substring `Personal`. -/
theorem gmail_classification :
    (provider_insights (str "gmail.com")).provider_name = str "Google Mail" ∧
    str "Personal" <:+: detect_email_type (str "gmail.com") := by
  constructor
  · decide
  · decide

/-- Claim C3: the email-type classification is total into the four fixed
categories, which are pairwise distinct, and is decided by the fixed
precedence: personal keyword match, then the educational suffixes, then
`.gov`, else the business category. -/
theorem email_type_classification :
    (∀ d, detect_email_type d ∈ email_types) ∧
    email_types.Nodup ∧
    (∀ d, hasPersonalKeyword d = true → detect_email_type d = str "Personal Email") ∧
    (∀ d, hasPersonalKeyword d = false → eduSuffix (pyLower d) = true →
      detect_email_type d = str "Educational / Academic Email") ∧
    (∀ d, hasPersonalKeyword d = false → eduSuffix (pyLower d) = false →
      List.isSuffixOf (str ".gov") (pyLower d) = true →
      detect_email_type d = str "Government Email") ∧
    (∀ d, hasPersonalKeyword d = false → eduSuffix (pyLower d) = false →
      List.isSuffixOf (str ".gov") (pyLower d) = false →
      detect_email_type d = str "Business / Organizational Email") := by
  refine ⟨?_, by decide, ?_, ?_, ?_, ?_⟩
  · intro d
    rw [detect_email_type_eq]
    by_cases h1 : hasPersonalKeyword d = true
    · simp [h1, email_types]
    · by_cases h2 : eduSuffix (pyLower d) = true
      · simp [h1, h2, email_types]
      · by_cases h3 : List.isSuffixOf (str ".gov") (pyLower d) = true
        · simp [h1, h2, h3, email_types]
        · simp [h1, h2, h3, email_types]
  · intro d h1
    rw [detect_email_type_eq]; simp [h1]
  · intro d h1 h2
    rw [detect_email_type_eq]; simp [h1, h2]
  · intro d h1 h2 h3
    rw [detect_email_type_eq]; simp [h1, h2, h3]
  · intro d h1 h2 h3
    rw [detect_email_type_eq]; simp [h1, h2, h3]

theorem email_type_classification_witness :
    hasPersonalKeyword (str "gmail.com") = true ∧
    detect_email_type (str "gmail.com") = str "Personal Email" :=
  ⟨by decide, email_type_classification.2.2.1 (str "gmail.com") (by decide)⟩

/-- Claim C9: the fun creation year is a deterministic function of the email
string, equal to `2000` plus the hash modulo `25`, hence always in the
interval from 2000 to 2024. -/
theorem fake_creation_year_deterministic_range :
    ∀ e : Str, fake_creation_year e = fake_creation_year e ∧
      fake_creation_year e = 2000 + md5Nat e % 25 ∧
      2000 ≤ fake_creation_year e ∧ fake_creation_year e ≤ 2024 := by
  intro e
  refine ⟨rfl, rfl, Nat.le_add_right _ _, ?_⟩
  have h : md5Nat e % 25 < 25 := Nat.mod_lt _ (by decide)
  unfold fake_creation_year
  omega

/-- Claim C10: the validator accepts `a@b.c.`, whose domain ends with a dot;
the parser then returns the empty extension although the domain contains a
dot, and `tld_info` reports `No TLD / local` for it. -/
theorem validator_accepts_trailing_dot_empty_tld :
    validate_email (str "a@b.c.") = true ∧
    List.isSuffixOf (str ".") (str "b.c.") = true ∧
    parse_email (str "a@b.c.") = some (str "a", str "b.c.", str "b", []) ∧
    (str "b.c.").contains '.' = true ∧
    tld_info [] = str "No TLD / local" := by
  refine ⟨?_, ?_, ?_, ?_, ?_⟩ <;> decide

/-- Claim C1, amended: `validate_email` returns true iff the trimmed input is
`l@d1.r` where `l` is a nonempty run of letters, digits and `. _ + -`, `d1` a
nonempty run of letters, digits and hyphens, and `r` a nonempty run of
letters, digits, hyphens and dots (so the domain needs at least one dot, and
labels after the first may be empty); in particular it returns false for the
empty string and for every string not containing an at sign. -/
theorem validator_matches_regex_contract :
    (∀ s, validate_email s = true ↔ specAmendedValid s) ∧
    validate_email [] = false ∧
    (∀ s, s.contains '@' = false → validate_email s = false) := by
  refine ⟨validate_email_iff, by decide, ?_⟩
  intro s h
  unfold validate_email
  rw [h]
  simp

theorem validator_matches_regex_contract_witness :
    (str "hello").contains '@' = false ∧ validate_email (str "hello") = false :=
  ⟨by decide, validator_matches_regex_contract.2.2 (str "hello") (by decide)⟩

/-- Claim C1 as frozen fails on the code: the spec's pattern, read literally
(domain = one or more dot-separated labels of letters, digits and hyphens),
accepts `a@b` with the single label `b`, but `validate_email` rejects it
because its regex requires a dot in the domain. -/
theorem validator_claim_counterexample :
    specClaimValid (str "a@b") ∧ validate_email (str "a@b") = false := by
  constructor
  · exact ⟨str "a", str "b", by decide, by decide, by decide, by decide⟩
  · decide

/-- Claim C4: provider classification returns the first provider-table entry,
in declaration order, whose key matches the lowercased domain exactly or as a
dot-suffix; with no match, the `.edu` and `.gov` suffixes yield the
institutional entries, and otherwise the generic custom entry is returned,
as it is for `unknownhost.xyz`. -/
theorem provider_lookup_first_match :
    (∀ d (i : Nat) (h : i < provider_mapping.length),
      provMatches (pyLower d) (provider_mapping.get ⟨i, h⟩) = true →
      (∀ j (hj : j < i), provMatches (pyLower d) (provider_mapping.get ⟨j, Nat.lt_trans hj h⟩) = false) →
      provider_insights d = (provider_mapping.get ⟨i, h⟩).2) ∧
    (∀ d, (∀ kv ∈ provider_mapping, provMatches (pyLower d) kv = false) →
      (List.isSuffixOf (str ".edu") (pyLower d) = true → provider_insights d = eduEntry) ∧
      (List.isSuffixOf (str ".edu") (pyLower d) = false →
        List.isSuffixOf (str ".gov") (pyLower d) = true → provider_insights d = govEntry) ∧
      (List.isSuffixOf (str ".edu") (pyLower d) = false →
        List.isSuffixOf (str ".gov") (pyLower d) = false → provider_insights d = customEntry)) ∧
    (provider_insights (str "unknownhost.xyz")).provider_name = str "Custom / Organization" := by
  refine ⟨?_, ?_, by decide⟩
  · intro d i h hp hb
    have hf := find?_eq_get_of_first (provMatches (pyLower d)) provider_mapping i h hp hb
    simp only [provider_insights, hf]
  · intro d hall
    have hf : provider_mapping.find? (provMatches (pyLower d)) = none :=
      List.find?_eq_none.mpr (fun kv hkv => by simp [hall kv hkv])
    refine ⟨?_, ?_, ?_⟩
    · intro h1
      simp only [provider_insights, hf]
      simp [h1]
    · intro h1 h2
      simp only [provider_insights, hf]
      simp [h1, h2]
    · intro h1 h2
      simp only [provider_insights, hf]
      simp [h1, h2]

theorem provider_lookup_first_match_witness :
    provider_insights (str "gmail.com") =
      ⟨str "Google Mail", str "Free/Consumer", str "Popular personal email provider (Gmail)."⟩ := by
  have h := provider_lookup_first_match.1 (str "gmail.com") 0 (by decide) (by decide)
    (fun j hj => absurd hj (Nat.not_lt_zero j))
  exact h.trans (by decide)

/-- Claim C5: on every input the validator accepts, parsing and re-joining
the local part and the full domain with an at sign reconstructs exactly the
trimmed original input. -/
theorem parse_rejoin_roundtrip (s : Str) (h : validate_email s = true) :
    ∃ u df dn ex, parse_email s = some (u, df, dn, ex) ∧ u ++ '@' :: df = pyStrip s := by
  obtain ⟨l, d1, r, hs, _, hall, _, _, _, _⟩ := (validate_email_iff s).mp h
  exact ⟨l, d1 ++ '.' :: r, _, _,
    parse_email_split s l _ hs (fun x hx => localChar_ne_at (hall x hx)), hs.symm⟩

theorem parse_rejoin_roundtrip_witness :
    validate_email (str "user@example.com") = true ∧
    ∃ u df dn ex, parse_email (str "user@example.com") = some (u, df, dn, ex) ∧
      u ++ '@' :: df = pyStrip (str "user@example.com") :=
  ⟨by decide, parse_rejoin_roundtrip (str "user@example.com") (by decide)⟩

/-- Claim C6: the parser splits the trimmed input on the first at sign into
local part and domain, splits the domain on dots, takes the first segment as
the domain label and the last segment as the extension when more than one
segment exists (else the empty string); with the two concrete examples. -/
theorem parser_split_behavior :
    (∀ s l d, pyStrip s = l ++ '@' :: d → (∀ x ∈ l, x ≠ '@') →
      parse_email s = some (l, d, (d.splitOn '.').headD d,
        if 1 < (d.splitOn '.').length then (d.splitOn '.').getLastD [] else [])) ∧
    parse_email (str "user@example.com") =
      some (str "user", str "example.com", str "example", str "com") ∧
    parse_email (str "user@sub.example.co.uk") =
      some (str "user", str "sub.example.co.uk", str "sub", str "uk") :=
  ⟨parse_email_split, by decide, by decide⟩

theorem parser_split_behavior_witness :
    pyStrip (str "a@b") = str "a" ++ '@' :: str "b" ∧
    parse_email (str "a@b") = some (str "a", str "b", str "b", []) := by
  refine ⟨by decide, ?_⟩
  have h := parser_split_behavior.1 (str "a@b") (str "a") (str "b") (by decide) (by decide)
  exact h.trans (by decide)

/-- Claim C7: bulk analysis maps every line to its own record, so an invalid
line yields exactly the error record with `Invalid format` and never aborts
the batch; on the list `["a@gmail.com", "not-an-email"]` it yields one valid
record and one error record, with processed count 2 and valid count 1. -/
theorem bulk_analysis_isolation :
    (∀ e, validate_email e = false → bulk_record e = .err e (str "Invalid format")) ∧
    (∀ lines, (analyze_bulk lines).length = lines.length) ∧
    (∃ rec, analyze_bulk [str "a@gmail.com", str "not-an-email"] =
        [rec, .err (str "not-an-email") (str "Invalid format")] ∧ isErrRecord rec = false) ∧
    (analyze_bulk [str "a@gmail.com", str "not-an-email"]).length = 2 ∧
    valid_count (analyze_bulk [str "a@gmail.com", str "not-an-email"]) = 1 := by
  refine ⟨?_, ?_, ⟨bulk_record (str "a@gmail.com"), by decide, by decide⟩, by decide, by decide⟩
  · intro e h
    simp [bulk_record, h]
  · intro lines
    simp [analyze_bulk]

theorem bulk_analysis_isolation_witness :
    validate_email (str "nope") = false ∧
    bulk_record (str "nope") = .err (str "nope") (str "Invalid format") :=
  ⟨by decide, bulk_analysis_isolation.1 (str "nope") (by decide)⟩

/-- Claim C8: every classification operation is total with a fallback branch
(provider and email type always land in their fixed result sets, unknown
nonempty extensions report `Unknown or custom TLD`, the empty extension
reports `No TLD / local`, an unknown typo key yields no suggestion), and the
parser succeeds on every validator-accepted input. -/
theorem classification_totality :
    (∀ d, provider_insights d ∈ provider_mapping.map Prod.snd ++ [eduEntry, govEntry, customEntry]) ∧
    (∀ d, detect_email_type d ∈ email_types) ∧
    tld_info [] = str "No TLD / local" ∧
    (∀ x, x ≠ [] → TLD_INFO.find? (fun kv => kv.1 = pyLower x) = none →
      tld_info x = str "Unknown or custom TLD") ∧
    (∀ d, COMMON_FIXES.find? (fun kv => kv.1 = pyLower d) = none → suggest_fix d = none) ∧
    (∀ s, validate_email s = true → (parse_email s).isSome = true) := by
  refine ⟨?_, ?_, by decide, ?_, ?_, ?_⟩
  · intro d
    cases hf : provider_mapping.find? (provMatches (pyLower d)) with
    | some kv =>
      simp only [provider_insights, hf]
      exact List.mem_append_left _ (List.mem_map_of_mem _ (List.mem_of_find?_eq_some hf))
    | none =>
      simp only [provider_insights, hf]
      by_cases h1 : List.isSuffixOf (str ".edu") (pyLower d) = true
      · rw [if_pos h1]
        exact List.mem_append_right _ (by decide)
      · rw [if_neg h1]
        by_cases h2 : List.isSuffixOf (str ".gov") (pyLower d) = true
        · rw [if_pos h2]
          exact List.mem_append_right _ (by decide)
        · rw [if_neg h2]
          exact List.mem_append_right _ (by decide)
  · intro d
    rw [detect_email_type_eq]
    by_cases h1 : hasPersonalKeyword d = true
    · simp [h1, email_types]
    · by_cases h2 : eduSuffix (pyLower d) = true
      · simp [h1, h2, email_types]
      · by_cases h3 : List.isSuffixOf (str ".gov") (pyLower d) = true
        · simp [h1, h2, h3, email_types]
        · simp [h1, h2, h3, email_types]
  · intro x hx hf
    have hxe : x.isEmpty = false := by simp [List.isEmpty_iff, hx]
    simp [tld_info, hxe, hf]
  · intro d hf
    simp [suggest_fix, hf]
  · intro s h
    obtain ⟨l, d1, r, hs, _, hall, _, _, _, _⟩ := (validate_email_iff s).mp h
    rw [parse_email_split s l _ hs (fun x hx => localChar_ne_at (hall x hx))]
    rfl

theorem classification_totality_witness :
    str "zz" ≠ ([] : Str) ∧
    TLD_INFO.find? (fun kv => kv.1 = pyLower (str "zz")) = none ∧
    tld_info (str "zz") = str "Unknown or custom TLD" :=
  ⟨by decide, by decide, classification_totality.2.2.2.1 (str "zz") (by decide) (by decide)⟩
